import Mathlib

/-!
Verification of the input-translation and emulation-scheduler core of
`citra_qt/bootmanager.cpp`, via a shallow embedding: pure fragments become
Lean functions, the scheduler loop becomes explicit state passing over a
per-iteration environment record, and side effects (Qt signals, SDL/KeyMap
calls, GL operations) become elements of explicit action traces.
-/

/- ### Input event model (`GRenderWindow` key/gamepad handlers) -/

/-- A `KeyMap::KeyPair`-like pair `(key code, device id)`. -/
abbrev KeyPair := Nat × Nat

/-- A call into the key mapping table: `KeyMap::PressKey` / `KeyMap::ReleaseKey`. -/
inductive KeyEvent where
  | press (k : KeyPair)
  | release (k : KeyPair)
deriving DecidableEq, Repr

/-- Device id carried by a forwarded key event. -/
def devOfEvent : KeyEvent → Nat
  | .press k => k.2
  | .release k => k.2

/-- `GRenderWindow::keyPressEvent`: forwards `{event->key(), keyboard_id}`. -/
def keyPressEvent (keyboard_id : Nat) (qtKey : Nat) : KeyEvent :=
  KeyEvent.press (qtKey, keyboard_id)

/-- The `gamepad_mappings` table built in `GRenderWindow::GamepadSetMappings`,
as `(SDL_GameControllerButton value, Qt key code)` pairs, in source order:
A, B, X, Y, START, BACK, DPAD_DOWN, DPAD_LEFT, DPAD_RIGHT, DPAD_UP. -/
def gamepad_mappings : List (Nat × Nat) :=
  [(0, 65), (1, 83), (2, 90), (3, 88), (6, 77), (4, 78),
   (12, 71), (13, 70), (14, 72), (11, 84)]

/-- `GRenderWindow::gamepadButtonEvent`: looks the SDL button up in
`gamepad_mappings` with `find_if`; on a hit, forwards a press or release of
`{keycode, keyboard_id}`; otherwise does nothing. -/
def gamepadButtonEvent (keyboard_id : Nat) (button : Nat) (pressed : Bool) :
    Option KeyEvent :=
  match gamepad_mappings.find? (fun e => e.1 == button) with
  | some e =>
      some (if pressed then KeyEvent.press (e.2, keyboard_id)
            else KeyEvent.release (e.2, keyboard_id))
  | none => none

/-- `GRenderWindow::gamepadAxisEvent`: for `SDL_CONTROLLER_AXIS_LEFTX` (axis 0)
emits press `16777234` when `value < -8000` else release `16777234`, then
press `16777236` when `value > 8000` else release `16777236`; likewise for
`SDL_CONTROLLER_AXIS_LEFTY` (axis 1) with codes `16777235` / `16777237`.
Every sample emits both direction events unconditionally; there is no stored
per-axis state. -/
def gamepadAxisEvent (keyboard_id : Nat) (axis : Nat) (value : Int) :
    List KeyEvent :=
  (if axis = 0 then
     [(if value < -8000 then KeyEvent.press (16777234, keyboard_id)
       else KeyEvent.release (16777234, keyboard_id)),
      (if value > 8000 then KeyEvent.press (16777236, keyboard_id)
       else KeyEvent.release (16777236, keyboard_id))]
   else []) ++
  (if axis = 1 then
     [(if value < -8000 then KeyEvent.press (16777235, keyboard_id)
       else KeyEvent.release (16777235, keyboard_id)),
      (if value > 8000 then KeyEvent.press (16777237, keyboard_id)
       else KeyEvent.release (16777237, keyboard_id))]
   else [])

/-- The per-sample event lists produced by feeding a value sequence to one
axis (each `SDL_CONTROLLERAXISMOTION` event calls `gamepadAxisEvent` once). -/
def axisTrace (keyboard_id : Nat) (axis : Nat) (values : List Int) :
    List (List KeyEvent) :=
  values.map (gamepadAxisEvent keyboard_id axis)

/-- The axis value sequence of the claim. -/
def axisSeq : List Int := [0, -9000, -9000, 0, 9000]

/- ### Claim C1 -/

/-- C1 counterexample: the code is stateless, so the claimed per-sample trace
`[release(neg)], [press(neg)], [], [release(neg)], [press(pos)]` is wrong: the
repeated raw value `-9000` (third sample) emits events again (a duplicate
press of the negative code plus a release of the positive code), and every
sample also emits the complementary direction event. -/
theorem axis_debounce_cex :
    gamepadAxisEvent 0 0 (-9000) ≠ ([] : List KeyEvent) ∧
    axisTrace 0 0 axisSeq ≠
      [[KeyEvent.release (16777234, 0)], [KeyEvent.press (16777234, 0)], [],
       [KeyEvent.release (16777234, 0)], [KeyEvent.press (16777236, 0)]] := by
  decide

/-- C1 (amended): each axis-motion sample emits exactly two events, one per
direction, unconditionally: press when the value is beyond the strict ±8000
threshold, release otherwise.  Feeding [0, -9000, -9000, 0, 9000] on axis 0
yields the fixed trace below; in particular the repeated raw value `-9000`
re-emits the same press/release pair rather than emitting nothing. -/
theorem axis_events_per_sample (kid : Nat) :
    axisTrace kid 0 axisSeq =
      [[KeyEvent.release (16777234, kid), KeyEvent.release (16777236, kid)],
       [KeyEvent.press (16777234, kid), KeyEvent.release (16777236, kid)],
       [KeyEvent.press (16777234, kid), KeyEvent.release (16777236, kid)],
       [KeyEvent.release (16777234, kid), KeyEvent.release (16777236, kid)],
       [KeyEvent.release (16777234, kid), KeyEvent.press (16777236, kid)]] := by
  simp [axisTrace, axisSeq, gamepadAxisEvent]

/- ### Claim C2 -/

/-- C2 counterexample: a mapped controller button press (SDL button 0 = A,
mapped to key code 65) is forwarded tagged with `keyboard_id` itself — the
very same DeviceId a keyboard key event carries — not with a distinct
controller DeviceId. -/
theorem gamepad_device_id_cex :
    (gamepadButtonEvent 3 0 true).map devOfEvent =
      some (devOfEvent (keyPressEvent 3 100)) := by
  decide

/-- C2 (amended): every mapped controller button event is forwarded through
the key mapping table tagged with the keyboard's DeviceId (`keyboard_id`),
not with a distinct controller DeviceId. -/
theorem gamepad_uses_keyboard_id :
    ∀ (kid button : Nat) (pressed : Bool) (ev : KeyEvent),
      gamepadButtonEvent kid button pressed = some ev → devOfEvent ev = kid := by
  intro kid button pressed ev h
  unfold gamepadButtonEvent at h
  split at h
  · cases pressed <;> simp_all <;> subst h <;> rfl
  · simp at h

/-- C2 witness: the amended theorem applied to button A pressed with
keyboard id 2. -/
theorem gamepad_uses_keyboard_id_witness :
    devOfEvent (KeyEvent.press (65, 2)) = 2 :=
  gamepad_uses_keyboard_id 2 0 true (KeyEvent.press (65, 2)) (by decide)

/- ### Graphics context broker (`moveContext`, `SwapBuffers`) -/

/-- Destination thread of a context migration. -/
inductive ThreadDest where
  | presentation
  | scheduler
deriving DecidableEq, Repr, Fintype

/-- A context-affecting operation performed by `moveContext`:
`release` is `DoneCurrent()` on the calling thread, `moveTo t` is
`child->context()->moveToThread(t)`. -/
inductive CtxAct where
  | release
  | moveTo (t : ThreadDest)
deriving DecidableEq, Repr

/-- `GRenderWindow::moveContext`: always `DoneCurrent()` first; then, in Qt5
builds (`QT_VERSION > 5.0.0`), moves the context to `emu_thread` when the
caller is the application (presentation) thread and `emu_thread` is non-null,
and to `qApp->thread()` (the presentation thread) in every other case. -/
def moveContext (qt5 : Bool) (currentIsAppThread : Bool) (emuThreadSet : Bool) :
    List CtxAct :=
  [CtxAct.release] ++
    (if qt5 then
       [CtxAct.moveTo (if currentIsAppThread && emuThreadSet then
                         ThreadDest.scheduler
                       else ThreadDest.presentation)]
     else [])

/-- Modelled from the spec: the migration-destination rule as the spec words
it — "if the scheduler thread is alive and this call originates from the
presentation thread, the destination is the scheduler thread; otherwise the
destination is the presentation thread". -/
def specMigrateDest (schedulerAlive fromPresentation : Bool) : ThreadDest :=
  if schedulerAlive && fromPresentation then ThreadDest.scheduler
  else ThreadDest.presentation

/- ### Claim C5 -/

/-- C5: every context migration releases the context first (the head of the
action list is the release on the calling thread, so never a bare acquire),
and any move it performs targets exactly the destination given by the spec's
liveness rule: scheduler thread when it is set/alive and the caller is the
presentation thread, presentation thread in every other case. -/
theorem move_context_release_then_dest :
    ∀ (qt5 cur emuSet : Bool),
      (moveContext qt5 cur emuSet).head? = some CtxAct.release ∧
      (∀ d, CtxAct.moveTo d ∈ moveContext qt5 cur emuSet →
        d = specMigrateDest emuSet cur) := by
  decide

/-- C5 witness: the theorem at the Qt5 presentation-thread call with a live
scheduler thread, whose move targets the scheduler thread. -/
theorem move_context_release_then_dest_witness :
    ThreadDest.scheduler = specMigrateDest true true :=
  (move_context_release_then_dest true true true).2 ThreadDest.scheduler
    (by decide)

/-- An operation performed by `GRenderWindow::SwapBuffers`. -/
inductive SwapAct where
  | makeCurrent
  | swap
deriving DecidableEq, Repr

/-- `GRenderWindow::SwapBuffers`: `child->makeCurrent()` is compiled only
when `QT_NO_DEBUG` is not defined (debug builds); `child->swapBuffers()` is
always called. -/
def SwapBuffers (qtNoDebug : Bool) : List SwapAct :=
  (if qtNoDebug then [] else [SwapAct.makeCurrent]) ++ [SwapAct.swap]

/- ### Claim C6 -/

/-- C6 counterexample: in a release build (`QT_NO_DEBUG` defined) the
make-current call is compiled out, so a buffer swap executes without any
re-assertion of the context as current — the claimed unconditional
make-current does not happen. -/
theorem swap_no_make_current_release_build :
    SwapAct.makeCurrent ∉ SwapBuffers true := by
  decide

/-- C6 (amended): a buffer-swap request always ends in the swap call, and the
re-assertion of the context as current before the swap happens exactly in
debug builds (`QT_NO_DEBUG` undefined): there it immediately precedes the
swap, while release builds perform the swap alone. -/
theorem swap_make_current_debug_only :
    ∀ (qtNoDebug : Bool),
      (SwapBuffers qtNoDebug).getLast? = some SwapAct.swap ∧
      (qtNoDebug = false →
        SwapBuffers qtNoDebug = [SwapAct.makeCurrent, SwapAct.swap]) ∧
      (qtNoDebug = true → SwapBuffers qtNoDebug = [SwapAct.swap]) := by
  decide

/-- C6 witness: the amended theorem at the debug build. -/
theorem swap_make_current_debug_only_witness :
    SwapBuffers false = [SwapAct.makeCurrent, SwapAct.swap] :=
  (swap_make_current_debug_only false).2.1 rfl

/- ### Key mapping table (`ReloadSetKeymaps`) -/

/-- The key mapping table: `(physical code, device id) → logical target`. -/
def KeyTable := KeyPair → Option Nat

/-- Modelled from the spec: `KeyMap::ClearKeyMapping` (not under `src/`) —
"`clear(deviceId)` removes all bindings for a device". -/
def ClearKeyMapping (dev : Nat) (t : KeyTable) : KeyTable :=
  fun k => if k.2 = dev then none else t k

/-- Modelled from the spec: `KeyMap::SetKeyMapping` (not under `src/`) —
"`setBinding(deviceId, physicalCode, logicalCode)` inserts/overwrites one
entry". -/
def SetKeyMapping (key : KeyPair) (target : Nat) (t : KeyTable) : KeyTable :=
  fun k => if k = key then some target else t k

/-- `GRenderWindow::ReloadSetKeymaps`: clears all bindings of `keyboard_id`,
then for each configured input, in configuration order, sets the binding
`(input_mappings value, keyboard_id) → mapping target`.  The configuration is
embedded as the list of `(physical code, target)` pairs the loop visits. -/
def ReloadSetKeymaps (keyboard_id : Nat) (cfg : List (Nat × Nat))
    (t : KeyTable) : KeyTable :=
  cfg.foldl (fun acc p => SetKeyMapping (p.1, keyboard_id) p.2 acc)
    (ClearKeyMapping keyboard_id t)

/-- Last-wins lookup of a physical code directly in the configuration list:
what the table should map `(phys, keyboard_id)` to after a reload. -/
def configLookup (cfg : List (Nat × Nat)) (phys : Nat) : Option Nat :=
  cfg.foldl (fun r p => if p.1 = phys then some p.2 else r) none

/-- Folding `SetKeyMapping` for one device over any starting table acts, on
that device's keys, as a last-wins fold over the configuration, and leaves
every other device's keys untouched. -/
theorem foldl_setKeyMapping (cfg : List (Nat × Nat)) :
    ∀ (u : KeyTable) (kid phys dev : Nat),
      (List.foldl (fun acc p => SetKeyMapping (p.1, kid) p.2 acc) u cfg)
          (phys, dev) =
        if dev = kid then
          List.foldl (fun r p => if p.1 = phys then some p.2 else r)
            (u (phys, dev)) cfg
        else u (phys, dev) := by
  induction cfg with
  | nil => intro u kid phys dev; by_cases h : dev = kid <;> simp [h]
  | cons p cfg ih =>
      intro u kid phys dev
      by_cases h : dev = kid
      · subst h
        rw [List.foldl_cons, ih]
        simp only [if_pos rfl, List.foldl_cons, SetKeyMapping]
        by_cases hp : p.1 = phys
        · subst hp
          simp [Prod.ext_iff]
        · have hp' : ¬phys = p.1 := fun hh => hp hh.symm
          simp [Prod.ext_iff, hp, hp']
      · rw [List.foldl_cons, ih]
        simp only [if_neg h, SetKeyMapping]
        simp [Prod.ext_iff, h]

/- ### Claim C9 -/

/-- C9: after `ReloadSetKeymaps`, the table for the reloaded device consists
exactly of the configured bindings — lookup of any physical code on that
device equals the last-wins lookup in the configuration alone, independent of
the previous table, so no prior binding for that device survives — while
bindings of every other device are untouched. -/
theorem reload_rebuilds_table :
    ∀ (t : KeyTable) (kid : Nat) (cfg : List (Nat × Nat)) (phys dev : Nat),
      (ReloadSetKeymaps kid cfg t (phys, kid) = configLookup cfg phys) ∧
      (dev ≠ kid → ReloadSetKeymaps kid cfg t (phys, dev) = t (phys, dev)) := by
  intro t kid cfg phys dev
  constructor
  · rw [ReloadSetKeymaps, foldl_setKeyMapping]
    simp [ClearKeyMapping, configLookup]
  · intro h
    rw [ReloadSetKeymaps, foldl_setKeyMapping]
    simp [ClearKeyMapping, h]

/-- A concrete previous table holding a stale binding everywhere. -/
def staleTable : KeyTable := fun _ => some 999

/-- C9 witness: the theorem at a one-entry configuration over a table whose
device-0 bindings are all stale; the stale binding is replaced on device 0
and kept on device 1. -/
theorem reload_rebuilds_table_witness :
    (ReloadSetKeymaps 0 [(5, 7)] staleTable (5, 0) = configLookup [(5, 7)] 5) ∧
    ReloadSetKeymaps 0 [(5, 7)] staleTable (5, 1) = staleTable (5, 1) :=
  ⟨(reload_rebuilds_table staleTable 0 [(5, 7)] 5 1).1,
   (reload_rebuilds_table staleTable 0 [(5, 7)] 5 1).2 (by decide)⟩

/- ### Emulation scheduler (`EmuThread::run`) -/

/-- An observable action of one `EmuThread::run` execution: the two Qt
signals, the machine calls `RunLoop` / `SingleStep` / `Shutdown`, the
condition-variable wait of the idle branch, and the final `moveContext`. -/
inductive Act where
  | left
  | entered
  | runCall
  | stepCall
  | waitIdle
  | shutdown
  | moveCtx
deriving DecidableEq, Repr, Fintype

/-- Presentation-thread activity interleaved with one loop iteration.
`reqStopA` / `setStepA` are `stop_run := true` / `exec_step := true` requests
landing before this iteration's flag reads; `run1` is the value the
`if (running)` read returns; `run2`, `reqStopB`, `setStepB` are the value of
the second `running` read and the requests landing during the machine call,
visible to the `was_active = running || exec_step` / `!stop_run` reads after
it (`running` is set and cleared freely by the presentation thread, so its
two reads are independent; `stop_run` and `exec_step` are flags the
presentation thread only sets, which the model keeps as state). -/
structure EnvWin where
  reqStopA : Bool
  setStepA : Bool
  run1 : Bool
  run2 : Bool
  reqStopB : Bool
  setStepB : Bool
deriving DecidableEq, Repr

/-- The scheduler-side state: the `exec_step` and `stop_run` flags and the
local `was_active` of `EmuThread::run`. -/
structure LoopState where
  execStep : Bool
  stopRun : Bool
  wasActive : Bool
deriving DecidableEq, Repr

/-- Result of one loop iteration: emitted actions, next state, and whether
the `while (!stop_run)` condition terminated the loop. -/
structure IterOut where
  acts : List Act
  st : LoopState
  exited : Bool
deriving DecidableEq, Repr

/-- One iteration of the `while (!stop_run)` loop of `EmuThread::run`:
  - `stop_run` true: the loop exits;
  - `running` true: emit `DebugModeLeft` if the previous iteration was not
    active, call `RunLoop`, recompute `was_active = running || exec_step`
    from the post-call flag values, and emit `DebugModeEntered` when the
    iteration became inactive and `stop_run` is not set;
  - else `exec_step` true: emit `DebugModeLeft` if not previously active,
    clear `exec_step`, call `SingleStep`, emit `DebugModeEntered`, yield,
    and set `was_active = false`;
  - else: block on `running_cv` (the idle wait). -/
def iter (s : LoopState) (e : EnvWin) : IterOut :=
  let step0 := s.execStep || e.setStepA
  let stop0 := s.stopRun || e.reqStopA
  if stop0 then
    ⟨[], ⟨step0, stop0, s.wasActive⟩, true⟩
  else if e.run1 then
    let lefts := if s.wasActive then [] else [Act.left]
    let step1 := step0 || e.setStepB
    let wa := e.run2 || step1
    let ents := if !wa && !e.reqStopB then [Act.entered] else []
    ⟨lefts ++ [Act.runCall] ++ ents, ⟨step1, e.reqStopB, wa⟩, false⟩
  else if step0 then
    let lefts := if s.wasActive then [] else [Act.left]
    ⟨lefts ++ [Act.stepCall, Act.entered], ⟨e.setStepB, e.reqStopB, false⟩,
     false⟩
  else
    ⟨[Act.waitIdle], ⟨e.setStepB, e.reqStopB, s.wasActive⟩, false⟩

/-- The loop run over a list of environment windows: stops early when an
iteration observes `stop_run`, and reports whether it did. -/
def runAux (s : LoopState) : List EnvWin → List Act × LoopState × Bool
  | [] => ([], s, false)
  | e :: es =>
    let o := iter s e
    if o.exited then (o.acts, o.st, true)
    else
      let r := runAux o.st es
      (o.acts ++ r.1, r.2.1, r.2.2)

/-- `EmuThread::run`: `stop_run = false` is assigned at entry, so the value
of `stop_run` at entry (`entryStop`) is discarded; `was_active` starts
`false`; `exec_step` keeps its entry value.  After the loop exits, the core
emulation is shut down (`Core::System::GetInstance().Shutdown()`) and then
the context is handed back (`render_window->moveContext()`). -/
def emuRun (entryStep entryStop : Bool) (es : List EnvWin) : List Act × Bool :=
  ((runAux ⟨entryStep, false, false⟩ es).1 ++
     (if (runAux ⟨entryStep, false, false⟩ es).2.2 then
        [Act.shutdown, Act.moveCtx]
      else []),
   (runAux ⟨entryStep, false, false⟩ es).2.2)

/-- The debug-mode notifications of a trace. -/
def isNotif : Act → Bool
  | .left => true
  | .entered => true
  | _ => false

/-- Restriction of a trace to the two debug-mode notifications. -/
def notifs (acts : List Act) : List Act := acts.filter isNotif

/-- A trace alternates relative to a preceding element `l`: each element
differs from its predecessor. -/
def altFrom : Act → List Act → Bool
  | _, [] => true
  | l, a :: rest => (a != l) && altFrom a rest

/-- Last element of a trace, defaulting to the preceding element `l`. -/
def lastAfter (l : Act) : List Act → Act
  | [] => l
  | a :: rest => lastAfter a rest

/-- Relation of the scheduler state to the kind of the last notification
emitted so far: after `DebugModeEntered`, `was_active` is `false`; after
`DebugModeLeft`, the scheduler is active or `stop_run` has been observed. -/
def lastOKb (s : LoopState) (l : Act) : Bool :=
  (l != Act.entered || !s.wasActive) &&
    (l != Act.left || (s.wasActive || s.stopRun))

/-- Splitting an alternation check over an append. -/
theorem altFrom_append (xs : List Act) :
    ∀ (ys : List Act) (l : Act),
      altFrom l (xs ++ ys) = (altFrom l xs && altFrom (lastAfter l xs) ys) := by
  induction xs with
  | nil => intro ys l; simp [altFrom, lastAfter]
  | cons a xs ih =>
      intro ys l
      simp [altFrom, lastAfter, ih, Bool.and_assoc]

/-- One iteration emits an alternating notification block and re-establishes
the state/last-notification relation (checked over all flag combinations). -/
theorem iter_alt (a b c pA sA r1 r2 pB sB : Bool) (l : Act) :
    lastOKb ⟨a, b, c⟩ l = true →
    (altFrom l (notifs (iter ⟨a, b, c⟩ ⟨pA, sA, r1, r2, pB, sB⟩).acts) = true ∧
     lastOKb (iter ⟨a, b, c⟩ ⟨pA, sA, r1, r2, pB, sB⟩).st
       (lastAfter l (notifs (iter ⟨a, b, c⟩ ⟨pA, sA, r1, r2, pB, sB⟩).acts)) =
       true) := by
  revert a b c pA sA r1 r2 pB sB l
  decide

/-- The whole loop emits an alternating notification stream from any state
related to the preceding notification kind. -/
theorem runAux_alt (es : List EnvWin) :
    ∀ (s : LoopState) (l : Act), lastOKb s l = true →
      altFrom l (notifs (runAux s es).1) = true := by
  induction es with
  | nil => intro s l _; simp [runAux, notifs, altFrom]
  | cons e es ih =>
      intro s l h
      obtain ⟨a, b, c⟩ := s
      obtain ⟨pA, sA, r1, r2, pB, sB⟩ := e
      have hi := iter_alt a b c pA sA r1 r2 pB sB l h
      rw [runAux]
      by_cases hx : (iter ⟨a, b, c⟩ ⟨pA, sA, r1, r2, pB, sB⟩).exited
      · simp only [hx, if_true]
        exact hi.1
      · simp only [hx, if_false, Bool.false_eq_true, notifs, List.filter_append]
        rw [← notifs, ← notifs, altFrom_append, hi.1, ih _ _ hi.2]
        rfl

/-- An alternation check yields a `List.Chain'` of disequality. -/
theorem altFrom_chain (xs : List Act) :
    ∀ (l : Act), altFrom l xs = true →
      List.Chain' (fun x y => x ≠ y) (l :: xs) := by
  induction xs with
  | nil => intro l _; simp
  | cons a xs ih =>
      intro l h
      rw [altFrom, Bool.and_eq_true] at h
      exact List.chain'_cons.mpr ⟨(bne_iff_ne.mp h.1).symm, ih a h.2⟩

/-- The notifications of a full run are those of its loop (the shutdown and
context handback emit no notification). -/
theorem notifs_emuRun (entryStep entryStop : Bool) (es : List EnvWin) :
    notifs (emuRun entryStep entryStop es).1 =
      notifs (runAux ⟨entryStep, false, false⟩ es).1 := by
  rw [emuRun]
  cases hx : (runAux ⟨entryStep, false, false⟩ es).2.2 <;>
    simp [hx, notifs, List.filter_append, isNotif]

/- ### Claim C3 -/

/-- An environment window in which the presentation thread requests nothing
and the `running` reads return `false`. -/
def envZero : EnvWin := ⟨false, false, false, false, false, false⟩

/-- An environment window in which `running` reads `true` at the branch,
then the presentation thread clears `running` and requests stop during the
`RunLoop` call. -/
def cexEnvA : EnvWin := ⟨false, false, true, false, true, false⟩

/-- Machine-activity acts of a trace. -/
def isActiveAct : Act → Bool
  | .runCall => true
  | .stepCall => true
  | _ => false

/-- Acts marking the scheduler inactive (idle wait or final shutdown). -/
def isIdleAct : Act → Bool
  | .waitIdle => true
  | .shutdown => true
  | _ => false

/-- Activity stream of a trace: `true` for each machine call, `false` for
each idle wait or the shutdown. -/
def activityOf (acts : List Act) : List Bool :=
  (acts.filter (fun a => isActiveAct a || isIdleAct a)).map isActiveAct

/-- Number of `true`-to-`false` descents after a given start value. -/
def downsFrom (a : Bool) : List Bool → Nat
  | [] => 0
  | b :: rest => (if a && !b then 1 else 0) + downsFrom b rest

/-- Number of active-to-inactive transitions in an activity stream. -/
def downs : List Bool → Nat
  | [] => 0
  | a :: rest => downsFrom a rest

/-- C3 counterexample: with `running` observed `true` once and then cleared
together with a stop request during that `RunLoop` call, the run performs one
machine call and then shuts down — one active-to-inactive transition — yet
emits zero `DebugModeEntered` notifications (the `!stop_run` guard suppresses
the edge notification), so "exactly once per active-to-inactive transition"
fails. -/
theorem debug_notif_missed_transition_cex :
    (emuRun false false [cexEnvA, envZero]).1.count Act.entered ≠
      downs (activityOf (emuRun false false [cexEnvA, envZero]).1) := by
  decide

/-- C3 (amended): the `DebugModeEntered` / `DebugModeLeft` notifications of
any run strictly alternate — two consecutive notifications of the same kind
never occur, and the first notification, if any, is `DebugModeLeft` (encoded
by prefixing a virtual `entered`).  However a transition edge may emit no
notification at all, so the claimed "exactly once per transition" does not
hold (see the counterexample). -/
theorem debug_notifs_alternate (entryStep entryStop : Bool) (es : List EnvWin) :
    List.Chain' (fun x y => x ≠ y)
      (Act.entered :: notifs (emuRun entryStep entryStop es).1) := by
  rw [notifs_emuRun]
  exact altFrom_chain _ Act.entered
    (runAux_alt es ⟨entryStep, false, false⟩ Act.entered rfl)

/- ### Claim C4 -/

/-- Numeral of a flag. -/
def b2n (b : Bool) : Nat := if b then 1 else 0

/-- Number of `requestSingleStep` calls the presentation thread makes in one
window. -/
def reqsOf (e : EnvWin) : Nat := b2n e.setStepA + b2n e.setStepB

/-- Total single-step requests over a run. -/
def totalReqs : List EnvWin → Nat
  | [] => 0
  | e :: es => reqsOf e + totalReqs es

/-- Number of `SingleStep` machine calls in a trace. -/
def stepCalls (acts : List Act) : Nat := acts.count Act.stepCall

/-- One iteration never performs more `SingleStep` calls than the pending
request flag plus the new requests of its window (the flag value carries the
unconsumed surplus). -/
theorem iter_step_bound (a b c pA sA r1 r2 pB sB : Bool) :
    stepCalls (iter ⟨a, b, c⟩ ⟨pA, sA, r1, r2, pB, sB⟩).acts +
        b2n (iter ⟨a, b, c⟩ ⟨pA, sA, r1, r2, pB, sB⟩).st.execStep ≤
      b2n a + reqsOf ⟨pA, sA, r1, r2, pB, sB⟩ := by
  revert a b c pA sA r1 r2 pB sB
  decide

/-- The loop never performs more `SingleStep` calls than the pending flag
plus all requests made while it runs. -/
theorem runAux_step_bound (es : List EnvWin) :
    ∀ (s : LoopState),
      stepCalls (runAux s es).1 + b2n (runAux s es).2.1.execStep ≤
        b2n s.execStep + totalReqs es := by
  induction es with
  | nil => intro s; simp [runAux, stepCalls, totalReqs]
  | cons e es ih =>
      intro s
      obtain ⟨a, b, c⟩ := s
      obtain ⟨pA, sA, r1, r2, pB, sB⟩ := e
      have hi := iter_step_bound a b c pA sA r1 r2 pB sB
      rw [runAux]
      by_cases hx : (iter ⟨a, b, c⟩ ⟨pA, sA, r1, r2, pB, sB⟩).exited
      · simp only [hx, if_true, totalReqs]
        omega
      · simp only [hx, if_false, Bool.false_eq_true, totalReqs]
        have hr := ih (iter ⟨a, b, c⟩ ⟨pA, sA, r1, r2, pB, sB⟩).st
        simp only [stepCalls, List.count_append] at hi hr ⊢
        omega

/-- In an idle iteration with the step flag pending, the step is consumed:
exactly one `SingleStep` call, and the flag afterwards holds only the
requests that arrived during the step. -/
theorem iter_step_consume (a c sA r2 pB sB : Bool) :
    (a || sA) = true →
    stepCalls (iter ⟨a, false, c⟩ ⟨false, sA, false, r2, pB, sB⟩).acts = 1 ∧
      (iter ⟨a, false, c⟩ ⟨false, sA, false, r2, pB, sB⟩).st.execStep = sB := by
  revert a c sA r2 pB sB
  decide

/-- C4: (i) over any run from any state, the number of `SingleStep` machine
calls never exceeds the pending step flag plus the number of
`requestSingleStep` calls — rapid repeated requests observed together never
cause more steps than requests; (ii) an iteration that observes no stop, no
`running`, and a pending step request performs exactly one `SingleStep` and
clears the flag exactly once immediately before it (afterwards the flag holds
only requests that arrived during the step), so an idle scheduler never
silently drops a request. -/
theorem single_step_request_consumption :
    (∀ (s : LoopState) (es : List EnvWin),
        stepCalls (runAux s es).1 ≤ b2n s.execStep + totalReqs es) ∧
    (∀ (s : LoopState) (e : EnvWin),
        s.stopRun = false → e.reqStopA = false → e.run1 = false →
        (s.execStep || e.setStepA) = true →
        stepCalls (iter s e).acts = 1 ∧ (iter s e).st.execStep = e.setStepB) := by
  constructor
  · intro s es
    have := runAux_step_bound es s
    omega
  · intro s e h1 h2 h3 h4
    obtain ⟨a, b, c⟩ := s
    obtain ⟨pA, sA, r1, r2, pB, sB⟩ := e
    simp only at h1 h2 h3 h4
    subst h1; subst h2; subst h3
    exact iter_step_consume a c sA r2 pB sB h4

/-- C4 witness: the consumption conjunct at a pending flag and an all-quiet
window: one step is performed and the flag is cleared. -/
theorem single_step_request_consumption_witness :
    stepCalls (iter ⟨true, false, false⟩ envZero).acts = 1 ∧
      (iter ⟨true, false, false⟩ envZero).st.execStep = false :=
  single_step_request_consumption.2 ⟨true, false, false⟩ envZero rfl rfl rfl rfl

/- ### Claim C7 -/

/-- The predicate of the condition-variable wait at line 60 of the source:
`IsRunning() || exec_step || stop_run`. -/
def waitPred (running step stop : Bool) : Bool := running || step || stop

/-- Modelled from the spec: `std::condition_variable::wait(lock, pred)`
(library code, not under `src/`) — the predicate is re-checked on every wake
and the wait returns only once it holds; over a wake sequence of flag
triples `(running, exec_step, stop_run)` this is the first triple satisfying
the predicate. -/
def cvWaitResult (wakes : List (Bool × Bool × Bool)) :
    Option (Bool × Bool × Bool) :=
  wakes.find? (fun w => waitPred w.1 w.2.1 w.2.2)

/-- The wait branch is taken exactly in the idle state, and an iteration that
waits does nothing else (checked over all flag combinations). -/
theorem iter_wait_iff (a b c pA sA r1 r2 pB sB : Bool) :
    (Act.waitIdle ∈ (iter ⟨a, b, c⟩ ⟨pA, sA, r1, r2, pB, sB⟩).acts ↔
      ((b || pA) = false ∧ r1 = false ∧ (a || sA) = false)) ∧
    (Act.waitIdle ∈ (iter ⟨a, b, c⟩ ⟨pA, sA, r1, r2, pB, sB⟩).acts →
      (iter ⟨a, b, c⟩ ⟨pA, sA, r1, r2, pB, sB⟩).acts = [Act.waitIdle]) := by
  revert a b c pA sA r1 r2 pB sB
  decide

/-- C7: the loop blocks on the condition variable exactly when the observed
`stop_run` is false, the observed `running` is false, and no step is pending
(first conjunct); a waiting iteration performs nothing but the wait — it is
the sole suspension point, with no machine call and no busy work (second
conjunct); and the wait, whose predicate is re-checked on every wake, returns
only a flag state in which running, a step, or stop is requested (third
conjunct). -/
theorem idle_wait_branch_predicate :
    (∀ (s : LoopState) (e : EnvWin),
        Act.waitIdle ∈ (iter s e).acts ↔
          ((s.stopRun || e.reqStopA) = false ∧ e.run1 = false ∧
           (s.execStep || e.setStepA) = false)) ∧
    (∀ (s : LoopState) (e : EnvWin),
        Act.waitIdle ∈ (iter s e).acts → (iter s e).acts = [Act.waitIdle]) ∧
    (∀ (wakes : List (Bool × Bool × Bool)) (w : Bool × Bool × Bool),
        cvWaitResult wakes = some w → waitPred w.1 w.2.1 w.2.2 = true) := by
  refine ⟨?_, ?_, ?_⟩
  · intro s e
    obtain ⟨a, b, c⟩ := s
    obtain ⟨pA, sA, r1, r2, pB, sB⟩ := e
    exact (iter_wait_iff a b c pA sA r1 r2 pB sB).1
  · intro s e
    obtain ⟨a, b, c⟩ := s
    obtain ⟨pA, sA, r1, r2, pB, sB⟩ := e
    exact (iter_wait_iff a b c pA sA r1 r2 pB sB).2
  · intro wakes w h
    have h' : List.find? (fun x : Bool × Bool × Bool => waitPred x.1 x.2.1 x.2.2)
        wakes = some w := h
    have h2 := List.find?_some h'
    exact h2

/-- C7 witness: an idle iteration waits and does nothing else, and a wake
with `running = true` satisfies the wait predicate. -/
theorem idle_wait_branch_predicate_witness :
    (iter ⟨false, false, false⟩ envZero).acts = [Act.waitIdle] ∧
      waitPred true false false = true :=
  ⟨idle_wait_branch_predicate.2.1 ⟨false, false, false⟩ envZero (by decide),
   idle_wait_branch_predicate.2.2 [(true, false, false)] (true, false, false)
     rfl⟩

/- ### Claim C8 -/

/-- A loop iteration never emits the shutdown or the context handback. -/
theorem iter_no_final (a b c pA sA r1 r2 pB sB : Bool) :
    Act.shutdown ∉ (iter ⟨a, b, c⟩ ⟨pA, sA, r1, r2, pB, sB⟩).acts ∧
      Act.moveCtx ∉ (iter ⟨a, b, c⟩ ⟨pA, sA, r1, r2, pB, sB⟩).acts := by
  revert a b c pA sA r1 r2 pB sB
  decide

/-- The loop itself never emits the shutdown or the context handback. -/
theorem runAux_no_final (es : List EnvWin) :
    ∀ (s : LoopState),
      Act.shutdown ∉ (runAux s es).1 ∧ Act.moveCtx ∉ (runAux s es).1 := by
  induction es with
  | nil => intro s; simp [runAux]
  | cons e es ih =>
      intro s
      obtain ⟨a, b, c⟩ := s
      obtain ⟨pA, sA, r1, r2, pB, sB⟩ := e
      have hi := iter_no_final a b c pA sA r1 r2 pB sB
      rw [runAux]
      by_cases hx : (iter ⟨a, b, c⟩ ⟨pA, sA, r1, r2, pB, sB⟩).exited
      · simp only [hx, if_true]
        exact hi
      · simp only [hx, if_false, Bool.false_eq_true, List.mem_append]
        have hr := ih (iter ⟨a, b, c⟩ ⟨pA, sA, r1, r2, pB, sB⟩).st
        constructor
        · intro h; rcases h with h | h
          · exact hi.1 h
          · exact hr.1 h
        · intro h; rcases h with h | h
          · exact hi.2 h
          · exact hr.2 h

/-- C8: whenever the run exits its loop (stop observed), the trace is the
loop trace — which contains neither action — followed by exactly the
shutdown and then the context handback, in that order; and a run whose loop
has not exited has performed neither action.  So shutdown happens exactly
once per exit and the context handback strictly after it, on every exit
path. -/
theorem exit_shutdown_then_move :
    ∀ (entryStep entryStop : Bool) (es : List EnvWin),
      ((emuRun entryStep entryStop es).2 = true →
        Act.shutdown ∉ (runAux ⟨entryStep, false, false⟩ es).1 ∧
        Act.moveCtx ∉ (runAux ⟨entryStep, false, false⟩ es).1 ∧
        (emuRun entryStep entryStop es).1 =
          (runAux ⟨entryStep, false, false⟩ es).1 ++
            [Act.shutdown, Act.moveCtx]) ∧
      ((emuRun entryStep entryStop es).2 = false →
        Act.shutdown ∉ (emuRun entryStep entryStop es).1 ∧
          Act.moveCtx ∉ (emuRun entryStep entryStop es).1) := by
  intro entryStep entryStop es
  have hn := runAux_no_final es ⟨entryStep, false, false⟩
  constructor
  · intro hx
    refine ⟨hn.1, hn.2, ?_⟩
    have hx' : (runAux ⟨entryStep, false, false⟩ es).2.2 = true := hx
    simp only [emuRun, hx', if_true]
  · intro hx
    have hx' : (runAux ⟨entryStep, false, false⟩ es).2.2 = false := hx
    simp only [emuRun, hx', if_false, List.append_nil, Bool.false_eq_true]
    exact hn

/-- An environment window that requests stop before the iteration's reads. -/
def envStop : EnvWin := ⟨true, false, false, false, false, false⟩

/-- C8 witness: the theorem at a run that stops in its first iteration — the
trace is exactly shutdown followed by the context handback. -/
theorem exit_shutdown_then_move_witness :
    Act.shutdown ∉ (runAux ⟨false, false, false⟩ [envStop]).1 ∧
    Act.moveCtx ∉ (runAux ⟨false, false, false⟩ [envStop]).1 ∧
    (emuRun false false [envStop]).1 =
      (runAux ⟨false, false, false⟩ [envStop]).1 ++
        [Act.shutdown, Act.moveCtx] :=
  (exit_shutdown_then_move false false [envStop]).1 rfl

/- ### Claim C10 -/

/-- An environment window in which `running` reads `true` throughout and the
presentation thread requests nothing. -/
def envRunning : EnvWin := ⟨false, false, true, true, false, false⟩

/-- C10: `EmuThread::run` assigns `stop_run = false` before the loop, so the
run is entirely independent of the stop flag's value at entry — a stop
requested after construction but before `run` executes is discarded (first
conjunct) — and with the entry stop flag set, a quiet running window still
executes one `RunLoop` iteration without exiting: the loop is entered rather
than exiting immediately (second and third conjuncts). -/
theorem run_resets_stop_flag :
    (∀ (entryStep entryStop : Bool) (es : List EnvWin),
        emuRun entryStep entryStop es = emuRun entryStep false es) ∧
    (emuRun false true [envRunning]).1.count Act.runCall = 1 ∧
    (emuRun false true [envRunning]).2 = false := by
  refine ⟨fun _ _ _ => rfl, by decide, rfl⟩
